import Mathlib

/-!
Verification development for the `hulk-react-utils` library.

This file gives a shallow embedding, in Lean 4, of the parts of the
TypeScript source that the specification's testable properties concern:

* `src/helpers.ts` — `parseErrorText`, `capitalizeFirstLetter`,
  `hulkFetchErrorParser` (modelled by `fetchErrRecord`);
* `src/hoc.tsx` — the auth-state `update` merge (`authUpdate`);
* `src/hooks.ts` — the `useHulkFetch` dispatcher (`dispatch`/`dispatchCore`)
  and the `useHulkAlert` `push` operation (`pushAlert`).

JavaScript runtime behavior that the embedded functions rely on
(`JSON.parse`, `typeof`, property access on `null`, `String(...)` coercion,
truthiness, object spread) is modelled explicitly on a small JSON value
type `JVal`.  Exceptions are modelled with `Except Unit`: a `.error ()`
result is a thrown JavaScript exception (equivalently, a rejected promise
when it escapes an `async` function).

Deliberate modelling boundaries (each noted again at the definition site):
* numbers are integers (no claim involves fractional or exponent literals);
* `\uXXXX` string escapes are not parsed (no claim involves them);
* URL resolution and query-string serialization inside `dispatch` are not
  modelled (no claim in scope concerns the request URL);
* the `onPending`/`onError`/`onSuccess` callbacks and the redirect
  collaborator are modelled as an ordered event trace.
-/

namespace Hulk

/-! ### JavaScript value model -/

/-- JSON values as produced by `JSON.parse`.  Numbers are modelled as
integers: no claim in scope involves fractional or exponent literals, and
`jsonParse` below rejects them rather than mis-parsing them. -/
inductive JVal where
  | null
  | jbool (b : Bool)
  | jnum (n : Int)
  | jstr (s : String)
  | jarr (xs : List JVal)
  | jobj (fields : List (String × JVal))
deriving Repr

/-- The `{` character, kept abstract so that no brace appears in a literal. -/
def lbrace : Char := Char.ofNat 123

/-- The `}` character. -/
def rbrace : Char := Char.ofNat 125

/-- JSON insignificant whitespace. -/
def isJsonWs (c : Char) : Bool :=
  c = ' ' || c = '\t' || c = '\n' || c = '\r'

/-- Drop leading JSON whitespace. -/
def skipWs (cs : List Char) : List Char :=
  cs.dropWhile isJsonWs

/-- Strip an expected literal prefix, returning the remainder on success. -/
def strip : List Char → List Char → Option (List Char)
  | [], cs => some cs
  | _ :: _, [] => none
  | p :: ps, c :: cs => if c = p then strip ps cs else none

/-- JSON string escapes recognised by the model, as a lookup table of
(escape character, decoded character) pairs (`\uXXXX` is rejected; no
claim in scope exercises it).  Backspace is U+0008, form feed U+000C. -/
def escTable : List (Char × Char) :=
  [('n', '\n'), ('t', '\t'), ('r', '\r'), ('"', '"'), ('\\', '\\'),
   ('/', '/'), ('b', Char.ofNat 0x08), ('f', Char.ofNat 0x0C)]

/-- Decode one escape character via `escTable`. -/
def unescape (e : Char) : Option Char :=
  (escTable.find? (fun p => p.1 = e)).map (·.2)

/-- Parse the body of a JSON string literal (the opening quote already
consumed), returning the string and the rest of the input. -/
def parseJStr : List Char → Option (String × List Char)
  | [] => none
  | c :: rest =>
    if c = '"' then some ("", rest)
    else if c = '\\' then
      match rest with
      | [] => none
      | e :: rest2 =>
        match unescape e with
        | none => none
        | some ec =>
          match parseJStr rest2 with
          | none => none
          | some (s, r) => some (⟨ec :: s.data⟩, r)
    else
      match parseJStr rest with
      | none => none
      | some (s, r) => some (⟨c :: s.data⟩, r)

/-- Decimal digits to a natural number. -/
def digitsToNat (ds : List Char) : Nat :=
  ds.foldl (fun a c => a * 10 + (c.toNat - 48)) 0

/-- Parse an unsigned integer literal.  A following `.`, `e` or `E`
(fraction/exponent) makes the model reject the input; no claim in scope
involves non-integer numbers. -/
def parseNat (cs : List Char) : Option (Nat × List Char) :=
  let ds := cs.takeWhile Char.isDigit
  if ds.isEmpty then none
  else
    let rest := cs.drop ds.length
    match rest with
    | [] => some (digitsToNat ds, [])
    | c :: _ =>
      if c = '.' || c = 'e' || c = 'E' then none
      else some (digitsToNat ds, rest)

/-- Parse a (possibly negative) integer literal. -/
def parseNum : List Char → Option (JVal × List Char)
  | '-' :: rest =>
    match parseNat rest with
    | none => none
    | some (n, r) => some (.jnum (-(n : Int)), r)
  | cs =>
    match parseNat cs with
    | none => none
    | some (n, r) => some (.jnum (n : Int), r)

/-- Insert one parsed object member, overwriting the value of an existing
key in place (the behavior of repeated assignment, which is what
`JSON.parse` does with duplicate keys: first position, last value). -/
def objInsert : List (String × JVal) → String × JVal → List (String × JVal)
  | [], kv => [kv]
  | (k, v) :: rest, kv =>
    if k = kv.1 then (k, kv.2) :: rest else (k, v) :: objInsert rest kv

/-- Collapse raw parsed members with `objInsert`. -/
def dedupeMembers (ms : List (String × JVal)) : List (String × JVal) :=
  ms.foldl objInsert []

mutual

/-- Fuel-indexed recursive-descent parser for one JSON value.
Models `JSON.parse` on the fragment of JSON the claims exercise
(see the module comment for the deliberate restrictions). -/
def parseVal : Nat → List Char → Option (JVal × List Char)
  | 0, _ => none
  | Nat.succ fuel, cs0 =>
    let cs := skipWs cs0
    match strip ("null".data) cs with
    | some r => some (.null, r)
    | none =>
    match strip ("true".data) cs with
    | some r => some (.jbool true, r)
    | none =>
    match strip ("false".data) cs with
    | some r => some (.jbool false, r)
    | none =>
    match cs with
    | [] => none
    | c :: rest =>
      if c = '"' then
        match parseJStr rest with
        | none => none
        | some (s, r) => some (.jstr s, r)
      else if c = '[' then
        match skipWs rest with
        | ']' :: r => some (.jarr [], r)
        | _ =>
          match parseItems fuel rest with
          | none => none
          | some (xs, r) => some (.jarr xs, r)
      else if c = lbrace then
        match skipWs rest with
        | [] => none
        | d :: r =>
          if d = rbrace then some (.jobj [], r)
          else
            match parseMembers fuel rest with
            | none => none
            | some (ms, r2) => some (.jobj (dedupeMembers ms), r2)
      else parseNum (c :: rest)

/-- Parse the comma-separated elements of a non-empty JSON array, up to and
including the closing bracket. -/
def parseItems : Nat → List Char → Option (List JVal × List Char)
  | 0, _ => none
  | Nat.succ fuel, cs =>
    match parseVal fuel cs with
    | none => none
    | some (v, r) =>
      match skipWs r with
      | ',' :: r2 =>
        match parseItems fuel r2 with
        | none => none
        | some (xs, r3) => some (v :: xs, r3)
      | ']' :: r2 => some ([v], r2)
      | _ => none

/-- Parse the comma-separated members of a non-empty JSON object, up to and
including the closing brace. -/
def parseMembers : Nat → List Char → Option (List (String × JVal) × List Char)
  | 0, _ => none
  | Nat.succ fuel, cs =>
    match skipWs cs with
    | [] => none
    | q :: r =>
      if q = '"' then
        match parseJStr r with
        | none => none
        | some (k, r1) =>
          match skipWs r1 with
          | ':' :: r2 =>
            match parseVal fuel r2 with
            | none => none
            | some (v, r3) =>
              match skipWs r3 with
              | [] => none
              | c4 :: r4 =>
                if c4 = ',' then
                  match parseMembers fuel r4 with
                  | none => none
                  | some (ms, r5) => some ((k, v) :: ms, r5)
                else if c4 = rbrace then some ([(k, v)], r4)
                else none
          | _ => none
      else none

end

/-- Model of `JSON.parse`: parse one value and require only whitespace to
remain.  `none` models a thrown `SyntaxError`. -/
def jsonParse (s : String) : Option JVal :=
  match parseVal (s.length * 2 + 4) s.data with
  | some (v, rest) => if (skipWs rest).isEmpty then some v else none
  | none => none

/-- JavaScript `typeof` on parsed JSON values (`typeof null` is
`"object"`). -/
def jsTypeof : JVal → String
  | .null => "object"
  | .jbool _ => "boolean"
  | .jnum _ => "number"
  | .jstr _ => "string"
  | .jarr _ => "object"
  | .jobj _ => "object"

/-- JavaScript truthiness of a parsed JSON value. -/
def truthy : JVal → Bool
  | .null => false
  | .jbool b => b
  | .jnum n => n != 0
  | .jstr s => s ≠ ""
  | .jarr _ => true
  | .jobj _ => true

mutual

/-- JavaScript `String(v)` coercion: `Array.prototype.toString` joins the
elements with `","` (with `null` elements contributing an empty string) and
plain objects print as `"[object Object]"`. -/
def jsToString : JVal → String
  | .null => "null"
  | .jbool b => if b then "true" else "false"
  | .jnum n => toString n
  | .jstr s => s
  | .jarr xs => joinArr xs
  | .jobj _ => "[object Object]"

/-- Comma-join of array elements for `String(...)` coercion. -/
def joinArr : List JVal → String
  | [] => ""
  | [JVal.null] => ""
  | [x] => jsToString x
  | JVal.null :: xs => "," ++ joinArr xs
  | x :: xs => jsToString x ++ "," ++ joinArr xs

end

/-- JavaScript property access `v.k` on a parsed JSON value: throws a
`TypeError` on `null` (modelled as `.error ()`), yields the field of an
object, and yields `undefined` (modelled as `none`) otherwise. -/
def getProp (v : JVal) (k : String) : Except Unit (Option JVal) :=
  match v with
  | .null => .error ()
  | .jobj fs => .ok ((fs.find? (fun kv => kv.1 = k)).map (·.2))
  | _ => .ok none

/-! ### `src/helpers.ts` -/

/-- `capitalizeFirstLetter` (helpers.ts:95-97):
`text.charAt(0).toUpperCase() + text.slice(1)`. -/
def capitalizeFirstLetter (text : String) : String :=
  match text.data with
  | [] => ""
  | c :: rest => ⟨c.toUpper :: rest⟩

/-- The expression `x.message || String(x)` (helpers.ts:52, 65, 70),
coerced to a string as at its use sites.  Accessing `.message` on `null`
throws (`Except.error`). -/
def msgOrString (x : JVal) : Except Unit String := do
  match ← getProp x "message" with
  | some m => if truthy m then pure (jsToString m) else pure (jsToString x)
  | none => pure (jsToString x)

/-- One element of the top-level-array branch (helpers.ts:51-53):
`typeof item === "object" ? item.message || String(item) : String(item)`. -/
def arrayItemLine (item : JVal) : Except Unit String :=
  if jsTypeof item = "object" then msgOrString item
  else .ok (jsToString item)

/-- The prefix put before each line for one object key (helpers.ts:60, 65,
70): no prefix for the literal key `detail`; otherwise the capitalized key
followed by `": "` — except that a capitalized key that is the empty string
is falsy in the template conditional and also yields no prefix. -/
def keyPrefix (key : String) : String :=
  if key = "detail" then ""
  else
    let formattedKey := capitalizeFirstLetter key
    if formattedKey ≠ "" then formattedKey ++ ": " else ""

/-- The lines contributed by one `Object.entries` pair (helpers.ts:58-71):
an array value yields one line per element; any other value yields a single
line.  In both cases the element/value is rendered with
`·.message || String(·)`, which throws on `null`. -/
def entryLines (key : String) (value : JVal) : Except Unit (List String) :=
  let pfx := keyPrefix key
  match value with
  | .jarr items => items.mapM (fun it => do pure (pfx ++ (← msgOrString it)))
  | v => do pure [pfx ++ (← msgOrString v)]

/-- The body of `parseErrorText`'s `try` block after a successful
`JSON.parse` (helpers.ts:50-75).  A `.error ()` result is an exception
raised while formatting, which the `catch` turns into the raw text. -/
def formatParsed : JVal → Except Unit (List String)
  | .jarr items => items.mapM arrayItemLine
  | .jobj fs => do
    let liness ← fs.mapM (fun kv => entryLines kv.1 kv.2)
    pure liness.flatten
  | v => pure [jsToString v]

/-- `parseErrorText` (helpers.ts:45-80).  The whole parse-and-format body
sits inside `try`; both a `JSON.parse` failure and any formatting exception
fall into the `catch`, which returns the raw input as a single-element
list. -/
def parseErrorText (errorText : String) : List String :=
  match jsonParse errorText with
  | none => [errorText]
  | some parsed =>
    match formatParsed parsed with
    | .ok lines => lines
    | .error _ => [errorText]

/-- Structured error record (`HulkFetchErrorProps`, types.ts). -/
structure ErrorRecord where
  message : String
  code : Nat
  details : Option (List String) := none
deriving DecidableEq, Repr

/-- `hulkFetchErrorParser` (helpers.ts:150-172) applied to a non-2xx
response with the given status, status text and body text: message is the
status text or `"An error occurred"` when that is empty, details come from
`parseErrorText`.  (For a 2xx response the TypeScript function returns
`undefined`; the dispatcher only invokes it on non-2xx responses and on the
synthesized 500 pseudo-response, so the embedding is total on its actual
call sites.) -/
def fetchErrRecord (status : Nat) (statusText : String) (body : String) :
    ErrorRecord :=
  { message := if statusText = "" then "An error occurred" else statusText
    code := status
    details := some (parseErrorText body) }

/-! ### `src/hoc.tsx` — auth state and its merge-update -/

/-- `TokenProps` (types.ts): `{ access_token: string }`. -/
structure Token where
  access_token : String
deriving DecidableEq, Repr

/-- `HulkAuthStateProps<UserProps>` (types.ts): both fields optional;
`none` models an absent/`undefined` field.  `User` is the caller-defined
opaque user shape. -/
structure AuthState (User : Type) where
  token : Option Token := none
  user : Option User := none
deriving DecidableEq, Repr

/-- The `update` callback of the HOC (hoc.tsx:162-171):
`setHulkAuthState(prev => ({ token: data.token ?? prev.token,
user: data.user ?? prev.user }))`.  The `??` (nullish coalescing) on
optional fields is `Option.orElse`. -/
def authUpdate {User : Type} (data prev : AuthState User) : AuthState User :=
  { token := data.token.orElse (fun _ => prev.token)
    user := data.user.orElse (fun _ => prev.user) }

/-! ### `src/hooks.ts` — the `useHulkFetch` dispatcher

The dispatcher is embedded by explicit state passing:

* the per-hook-instance mutable variables (`threshold`, the auth *store*
  behind `hulk.auth.update`, and `data` set by `setData`) are threaded in
  a `DState` record;
* the auth state the running closure *reads* (`hulk.auth.state`,
  hooks.ts:408) is the render-time value captured when the `dispatch`
  callback was created: React's `setState` never mutates the captured
  object, so `hulk.auth.update(...)` made during the chain does not change
  what this chain's later activations read.  The embedding therefore
  fixes a `closureToken` for the whole recursion (captured from the store
  at `dispatchCore` entry, when store and render state coincide) while
  `update` calls merge into the threaded store only;
* the network (`fetch`) and the credential-refresh collaborator
  (`accessTokenRetriever`) are oracles indexed by how many times each has
  been invoked so far;
* the `onPending` / `onError` / `onSuccess` callbacks and the redirect
  collaborator are recorded as an ordered `Event` trace;
* a `.error ()` result is an exception escaping `dispatch`, i.e. a
  rejected promise.

URL construction (`new URL`, `baseUrl`) and query-string serialization
(hooks.ts:391-405) are not modelled: no claim in scope concerns the
request URL, and those steps touch neither the headers, the threshold,
the auth state nor the control flow.  The `body` and other `RequestInit`
fields pass through `dispatch` unchanged and are likewise omitted. -/

/-- Header maps are JavaScript objects with string keys in insertion
order; keys are unique. -/
abbrev HeaderMap := List (String × String)

/-- Assignment/spread of one key: overwrite in place if the key exists,
else append (JavaScript object key ordering). -/
def hset : HeaderMap → String → String → HeaderMap
  | [], k, v => [(k, v)]
  | (k', v') :: rest, k, v =>
    if k' = k then (k', v) :: rest else (k', v') :: hset rest k v

/-- `{...a, ...b}` for header objects: every key of `b` assigned over
`a`. -/
def spreadH (a b : HeaderMap) : HeaderMap :=
  b.foldl (fun m kv => hset m kv.1 kv.2) a

/-- Header lookup. -/
def hGet (m : HeaderMap) (k : String) : Option String :=
  (m.find? (fun kv => kv.1 = k)).map (·.2)

/-- Outcome of one `fetch` call: `reject` models the call itself throwing
(connectivity loss); `resp` carries status, status text and body text. -/
inductive NetResult where
  | reject
  | resp (status : Nat) (statusText : String) (body : String)
deriving DecidableEq, Repr

/-- The collaborators consumed by one dispatcher instance: the network and
the refresh collaborator as call-indexed oracles, whether an
`accessTokenRetriever` is configured, and the current pathname. -/
structure Env where
  net : Nat → NetResult
  refresh : Nat → Option Token
  retrieverConfigured : Bool
  pathname : String

/-- The global fetch configuration fields the claims exercise
(`HulkFetchGlobalOptionsProps`).  `hasErrRecord` states whether an
`errorParser` is configured; when it is, it is the library's own
`hulkFetchErrorParser` (modelled by `fetchErrRecord`); an arbitrary
user-supplied parser is outside the embedding. -/
structure FetchGlobalOptions where
  defaultHeaders : HeaderMap := []
  unauthorizedRedirectUrl : Option String := none
  hasErrRecord : Bool := false

/-- The fields of `HulkFetchProps` that the dispatcher itself reads.
`none` models an absent property. -/
structure FetchInit where
  method : Option String := none
  headers : Option HeaderMap := none
  clearThreshold : Bool := false

/-- Per-dispatcher mutable state, threaded explicitly: the retry
`threshold` counter, the auth state (user data modelled as `String`; the
dispatcher never inspects it), the `data` last stored by `setData`, and
the number of network / refresh-collaborator calls made so far (indexing
the `Env` oracles). -/
structure DState where
  threshold : Nat := 0
  auth : AuthState String := {}
  data : Option JVal := none
  fetchCount : Nat := 0
  refreshCount : Nat := 0
deriving Repr

/-- Observable actions of one dispatch chain, in order:
`pending` models the effective `onPending` callback, `fetchCall` one
network call (recording the method, final headers and the
`clearThreshold` flag of the `init` object handed to `fetch`), `onError` /
`onSuccess` the effective terminal callbacks, `redirectTo` the redirect
collaborator. -/
inductive Event where
  | pending (phase : String)
  | fetchCall (method : String) (headers : HeaderMap) (clearThreshold : Bool)
  | onError (e : ErrorRecord)
  | onSuccess (v : JVal)
  | redirectTo (url : String)
deriving Repr

/-- `maxThreshold` (hooks.ts:342). -/
def maxThreshold : Nat := 5

/-- The option merge at hooks.ts:373-380:

```
init = { method: 'GET', headers: { ...defaultHeaders, ...init.headers }, ...init };
```

The trailing `...init` spread re-assigns every property present on the
caller's `init` — including `headers` — so when the caller supplied a
`headers` object it *replaces* the freshly merged
`{...defaultHeaders, ...init.headers}` value; the merged object survives
only when the caller's `init` has no `headers` property (in which case it
equals a copy of `defaultHeaders`). -/
def mergeInit (defaultHeaders : HeaderMap) (init : FetchInit) : FetchInit :=
  let merged := spreadH defaultHeaders (init.headers.getD [])
  { method := some (init.method.getD "GET")
    headers := some (match init.headers with
      | some h => h
      | none => merged)
    clearThreshold := init.clearThreshold }

/-- The terminal branch taken on a 401/403 when the refresh collaborator
returned no credential or the threshold is exhausted (hooks.ts:450-472):
`update({token: undefined, user: undefined})` on the auth state, then
`onPending("end")`, then the error record (parsed or the
`{message:"Unauthorized"}` fallback), then — when a redirect target is
configured (truthy) and the pathname is nonempty and differs from it —
the redirect to `<target>?code=401&next=<pathname>`. -/
def authTerminal (env : Env) (g : FetchGlobalOptions) (st : DState)
    (status : Nat) (statusText body : String) (ev1 : List Event) :
    DState × List Event :=
  let st' := { st with auth := authUpdate { token := none, user := none } st.auth }
  let err := if g.hasErrRecord then fetchErrRecord status statusText body
             else { message := "Unauthorized", code := status }
  let redirects := match g.unauthorizedRedirectUrl with
    | some u =>
      if env.pathname ≠ "" ∧ u ≠ "" ∧ env.pathname ≠ u then
        [Event.redirectTo (u ++ "?code=401&next=" ++ env.pathname)]
      else []
    | none => []
  (st', ev1 ++ [.pending "end", .onError err] ++ redirects)

/-- The final headers of one activation (hooks.ts:408-415): the headers of
the (merged) `init`, with `authorization: Bearer <token>` assigned over
them when `hulk.auth.state` holds a credential.  `closureToken` is the
credential of the *captured render-time* auth state — constant across the
whole retry chain, not the store updated by `hulk.auth.update` — so on a
retry this assignment overwrites the pre-set header with the stale
credential whenever one existed. -/
def dispatchHeaders (init : FetchInit) (closureToken : Option Token) : HeaderMap :=
  match closureToken with
  | some t => hset (init.headers.getD []) "authorization" ("Bearer " ++ t.access_token)
  | none => init.headers.getD []

/-- The events every activation emits before the network answers:
`onPending("start")` (hooks.ts:388) and the network call itself with the
effective method (default `GET`), final headers, and the `clearThreshold`
flag of the `init` object passed to `fetch`. -/
def startEvents (init : FetchInit) (closureToken : Option Token) : List Event :=
  [.pending "start",
   .fetchCall (init.method.getD "GET") (dispatchHeaders init closureToken)
     init.clearThreshold]

/-- The state passed to the recursive retry call (hooks.ts:473-479): one
threshold unit consumed (`validateThreshold`), the auth *store* merged
with the new credential (`hulk.auth.update({ token: accessResponse })` —
visible to later renders, but not to this chain's closure, which keeps
reading the captured render-time state), one more network call and one
more refresh call consumed. -/
def retryState (st : DState) (tok : Token) : DState :=
  { threshold := st.threshold + 1
    auth := authUpdate { token := some tok, user := none } st.auth
    data := st.data
    fetchCount := st.fetchCount + 1
    refreshCount := st.refreshCount + 1 }

/-- The `init` passed to the recursive retry call (hooks.ts:479-486): the
same overrides with `clearThreshold` forced to `false` and the
`authorization` header pre-set to the new credential over the current
(already credential-injected) headers. -/
def retryInit (init : FetchInit) (headers : HeaderMap) (tok : Token) : FetchInit :=
  { method := init.method
    headers := some (hset headers "authorization" ("Bearer " ++ tok.access_token))
    clearThreshold := false }

/-- The body of `dispatch` after the option merge and threshold reset
(hooks.ts:388-505).  The recursive call at hooks.ts:479-486 goes through
`dispatch` again with `clearThreshold: false` and `method`/`headers`
present, for which the outer merge and reset of `dispatch` are the
identity, so the recursion re-enters here directly.

Per activation: `onPending("start")`; inject
`authorization: Bearer <token>` over the headers when the *captured*
auth state holds a credential (hooks.ts:408-415; `closureToken`, constant
across the chain); call the network.  A transport failure yields the
synthesized 500 record (whose mock `text()` closure can be read any
number of times, hooks.ts:424-431, so a configured parser resolves); a
401/403 with a configured retriever consults the refresh oracle and
either retries (threshold consumed, auth store merged with the new token,
authorization header pre-set) or takes `authTerminal`; any other non-2xx
first consumes the body with `await response.text()` (hooks.ts:490) — so
a configured `errorParser` (`hulkFetchErrorParser`, helpers.ts:154)
re-reads an already-consumed body and the resulting `TypeError` *escapes*
(`.error ()`), while the no-parser fallback resolves with the
status-derived record; a 2xx body is `JSON.parse`d — with the result
stored in `data` on success and the exception escaping (`.error ()`) when
the body is not valid JSON, since `await response.json()` (hooks.ts:500)
is outside every `try`/`catch`.

The recursion is driven by an explicit `fuel` argument kept equal to
`coreFuel st.threshold` by `dispatchCore` (see `coreFuel_consistent`):
retrying requires `st.threshold < maxThreshold`, which makes the fuel at
every recursive call again `coreFuel` of the new threshold and in
particular positive, so the `0` branch below is unreachable from
`dispatchCore`. -/
def dispatchFuel (env : Env) (g : FetchGlobalOptions) (closureToken : Option Token) :
    Nat → FetchInit → DState → Except Unit (DState × List Event)
  | 0, _, _ => .error ()
  | Nat.succ fuel, init, st =>
  let headers := dispatchHeaders init closureToken
  let ev1 : List Event := startEvents init closureToken
  match env.net st.fetchCount with
  | .reject =>
    let err := if g.hasErrRecord then
        fetchErrRecord 500 "Network Error" "Network error, please try again later."
      else { message := "Network error", code := 500 }
    .ok ({ st with fetchCount := st.fetchCount + 1 },
         ev1 ++ [.pending "end", .onError err])
  | .resp status statusText body =>
    if (status = 401 || status = 403) && env.retrieverConfigured then
      match env.refresh st.refreshCount with
      | none =>
        .ok (authTerminal env g
          { st with fetchCount := st.fetchCount + 1, refreshCount := st.refreshCount + 1 }
          status statusText body ev1)
      | some tok =>
        if st.threshold < maxThreshold then
          match dispatchFuel env g closureToken fuel
              (retryInit init headers tok) (retryState st tok) with
          | .ok (st2, ev2) => .ok (st2, ev1 ++ ev2)
          | .error e => .error e
        else
          .ok (authTerminal env g
            { st with fetchCount := st.fetchCount + 1, refreshCount := st.refreshCount + 1 }
            status statusText body ev1)
    else if 200 ≤ status ∧ status < 300 then
      match jsonParse body with
      | none => .error ()
      | some v =>
        .ok ({ st with fetchCount := st.fetchCount + 1, data := some v },
             ev1 ++ [.pending "end", .onSuccess v])
    else
      if g.hasErrRecord then .error ()
      else
        .ok ({ st with fetchCount := st.fetchCount + 1 },
             ev1 ++ [.pending "end", .onError
               { message := if statusText = "" then "An error occurred" else statusText
                 code := status }])

/-- The fuel that drives `dispatchFuel` from a given threshold: one unit
per remaining activation.  A threshold below `maxThreshold` can retry
`maxThreshold - threshold` more times; a threshold at or above it cannot
retry at all, so one unit suffices.  Always positive. -/
def coreFuel (threshold : Nat) : Nat :=
  maxThreshold + 1 - min threshold maxThreshold

/-- The dispatch request/retry loop from an arbitrary state.  The
credential the chain's closure reads is captured here from the store
(`hulk.auth.state` at the render that created the callback coincides with
the store when `dispatch` is invoked) and stays fixed for the whole
chain. -/
def dispatchCore (env : Env) (g : FetchGlobalOptions) (init : FetchInit)
    (st : DState) : Except Unit (DState × List Event) :=
  dispatchFuel env g st.auth.token (coreFuel st.threshold) init st

/-- `dispatch` (hooks.ts:371-506): merge the options (hooks.ts:373-380),
reset the threshold when `clearThreshold` is truthy (hooks.ts:383-385),
then run the request/retry loop. -/
def dispatch (env : Env) (g : FetchGlobalOptions) (init : FetchInit)
    (st : DState) : Except Unit (DState × List Event) :=
  let m := mergeInit g.defaultHeaders init
  let st1 := if m.clearThreshold then { st with threshold := 0 } else st
  dispatchCore env g m st1

/-- Is an event a network call? -/
def isFetchEv : Event → Bool
  | .fetchCall _ _ _ => true
  | _ => false

/-- Is an event an `onError` invocation? -/
def isErrorEv : Event → Bool
  | .onError _ => true
  | _ => false

/-- Is an event a redirect-collaborator invocation? -/
def isRedirectEv : Event → Bool
  | .redirectTo _ => true
  | _ => false

/-- Number of network calls recorded in a trace. -/
def fetchCalls (ev : List Event) : Nat := ev.countP (fun e => isFetchEv e)

/-- Number of `onError` invocations recorded in a trace. -/
def errorCalls (ev : List Event) : Nat := ev.countP (fun e => isErrorEv e)

/-- The arguments of the redirect-collaborator invocations in a trace, in
order. -/
def redirectArgs : List Event → List String
  | [] => []
  | .redirectTo u :: rest => u :: redirectArgs rest
  | _ :: rest => redirectArgs rest

/-! ### `src/hooks.ts` — the `useHulkAlert` `push` operation

Documents are modelled flat: a list of top-level container elements, each
holding a list of alert `div`s (id + text content).  This covers every
document the alert claims construct; alert content is modelled as the
string/textContent case of `push` (a React-element child mounts
asynchronously and its content is irrelevant to the DOM-identity claim).
`document.getElementById` scans the document in order — each container
before its children — and returns the first element with the id. -/

/-- One alert `div`: the id assigned from `alertOptions.alertId` and its
text content. -/
structure AlertElem where
  id : String
  content : String
deriving DecidableEq, Repr

/-- A top-level container element (a push/pop target). -/
structure Container where
  id : String
  children : List AlertElem
deriving DecidableEq, Repr

/-- An element found by `document.getElementById`: either a container or
an alert `div` inside the container with the given id. -/
inductive Found where
  | cont (c : Container)
  | child (parentId : String) (e : AlertElem)
deriving DecidableEq, Repr

/-- `document.getElementById`: first element in document order (container,
then its children, then the next container) whose id matches. -/
def findInDoc : List Container → String → Option Found
  | [], _ => none
  | c :: rest, i =>
    if c.id = i then some (.cont c)
    else
      match c.children.find? (fun e => e.id = i) with
      | some e => some (.child c.id e)
      | none => findInDoc rest i

/-- `target.contains(found)`: the found element is the target itself or
one of its children. -/
def containsF (target : Container) : Found → Bool
  | .cont c => c = target
  | .child pid e => pid = target.id && target.children.any (fun x => x = e)

/-- Remove the first child equal to `e` (the node removed by
`target.removeChild`). -/
def removeFirst : List AlertElem → AlertElem → List AlertElem
  | [], _ => []
  | x :: xs, e => if x = e then xs else x :: removeFirst xs e

/-- Apply `f` to the children of the first container with the given id. -/
def updateContainer : List Container → String → (List AlertElem → List AlertElem) →
    List Container
  | [], _, _ => []
  | c :: rest, tid, f =>
    if c.id = tid then { c with children := f c.children } :: rest
    else c :: updateContainer rest tid f

/-- `push` of `useHulkAlert` (hooks.ts:196-239), for string content.

Target resolution: `alertOptions.targetId` when truthy, else the global
`targetId`; a missing target element, or falsy content, makes the call a
silent no-op (hooks.ts:207).  When `replaceDuplicates` is enabled, an
existing element with `alertId` that is contained in the target is removed
first (hooks.ts:209-215).  Then a fresh `div` with id `alertId` and the
content as text is appended (hooks.ts:217-237).

`.error ()` marks the two situations the flat document model cannot hold
(both unreachable under the claims' hypotheses, which give container ids
distinct from alert ids): a push target resolving to an alert `div`
(appending would nest alerts), and `getElementById(alertId)` resolving to
the target container itself (there `target.removeChild(target)` throws
`NotFoundError` in the DOM). -/
def pushAlert (dom : List Container) (globalTargetId : String)
    (replaceDuplicates : Bool) (node : String) (alertId : String)
    (targetId : Option String) : Except Unit (List Container) :=
  let tid := match targetId with
    | some t => if t ≠ "" then t else globalTargetId
    | none => globalTargetId
  match findInDoc dom tid with
  | some (.cont target) =>
    if node ≠ "" then
      let step1 : Except Unit (List Container) :=
        if replaceDuplicates then
          match findInDoc dom alertId with
          | some f =>
            if containsF target f then
              match f with
              | .child _ e =>
                .ok (updateContainer dom target.id (fun ch => removeFirst ch e))
              | .cont _ => .error ()
            else .ok dom
          | none => .ok dom
        else .ok dom
      match step1 with
      | .ok dom1 =>
        .ok (updateContainer dom1 target.id (fun ch => ch ++ [⟨alertId, node⟩]))
      | .error e => .error e
    else .ok dom
  | some (.child _ _) => .error ()
  | none => .ok dom

/-! ### Observation helpers and concrete fixtures used by the theorems -/

/-- The network calls of a trace: method, final headers, and the
`clearThreshold` flag passed along with the request. -/
def fetchEvs : List Event → List (String × HeaderMap × Bool)
  | [] => []
  | .fetchCall m h ct :: rest => (m, h, ct) :: fetchEvs rest
  | _ :: rest => fetchEvs rest

/-- Number of children of an alert container with a given id. -/
def countById (ch : List AlertElem) (i : String) : Nat :=
  ch.countP (fun e => e.id = i)

/-- The children of an alert container with a given id, in order. -/
def filterById (ch : List AlertElem) (i : String) : List AlertElem :=
  ch.filter (fun e => e.id = i)

/-- A typical global configuration: a default `Content-Type` header, the
`/login` redirect target, no configured `errorParser`. -/
def gBase : FetchGlobalOptions :=
  { defaultHeaders := [("Content-Type", "application/json")]
    unauthorizedRedirectUrl := some "/login"
    hasErrRecord := false }

/-- A network that always answers 200 with a body that is not valid
JSON. -/
def envBadBody : Env :=
  { net := fun _ => .resp 200 "OK" "not json"
    refresh := fun _ => none
    retrieverConfigured := false
    pathname := "/" }

/-- A network that always answers a plain 500 (no retriever involved). -/
def envServerErr : Env :=
  { net := fun _ => .resp 500 "Internal Server Error" "boom"
    refresh := fun _ => none
    retrieverConfigured := false
    pathname := "/" }

/-- Like `gBase` but with an `errorParser` configured — the default
configuration (configs.ts wires `errorParser: hulkFetchErrorParser`). -/
def gWithParser : FetchGlobalOptions :=
  { defaultHeaders := [("Content-Type", "application/json")]
    unauthorizedRedirectUrl := some "/login"
    hasErrRecord := true }

/-- A network that always answers 401 while the refresh collaborator
always fails, observed from the `/login` page. -/
def envAuthFail : Env :=
  { net := fun _ => .resp 401 "Unauthorized" "nope"
    refresh := fun _ => none
    retrieverConfigured := true
    pathname := "/login" }

/-- Like `envAuthFail` but observed from `/dashboard`. -/
def envAuthFailDash : Env :=
  { net := fun _ => .resp 401 "Unauthorized" "nope"
    refresh := fun _ => none
    retrieverConfigured := true
    pathname := "/dashboard" }

/-- A network that always answers 200 with the body `{}`. -/
def envOkEmpty : Env :=
  { net := fun _ => .resp 200 "OK" "\x7b\x7d"
    refresh := fun _ => none
    retrieverConfigured := false
    pathname := "/" }

/-- A dispatcher state holding a stale credential and a user. -/
def stOld : DState :=
  { auth := { token := some ⟨"old-token"⟩, user := some "alice" } }

/-- A network that always answers 401 while the refresh collaborator
always succeeds: the refresh loop scenario. -/
def envRefreshLoop : Env :=
  { net := fun _ => .resp 401 "Unauthorized" "nope"
    refresh := fun _ => some ⟨"fresh"⟩
    retrieverConfigured := true
    pathname := "/dashboard" }

/-- A network whose first answer is 401 and whose later answers are 200
with body `{"ok":true}`, with a refresh collaborator resolving the
credential `new`: the refresh-and-retry scenario. -/
def envRefreshOnce : Env :=
  { net := fun i => if i = 0 then .resp 401 "Unauthorized" "expired"
                    else .resp 200 "OK" "\x7b\"ok\":true\x7d"
    refresh := fun _ => some ⟨"new"⟩
    retrieverConfigured := true
    pathname := "/dashboard" }

/-! ## Theorems -/

/-- C7: the auth update operation merges rather than replaces — the
resulting token is `U.token ?? S.token`, the resulting user is
`U.user ?? S.user`, and `update({})` leaves the state unchanged. -/
theorem C7_auth_update_merges {User : Type} (S U : AuthState User) :
    (authUpdate U S).token = (U.token.orElse fun _ => S.token) ∧
    (authUpdate U S).user = (U.user.orElse fun _ => S.user) ∧
    authUpdate {} S = S := by
  refine ⟨rfl, rfl, ?_⟩
  cases S with
  | mk t u => rfl

/-- C7 witness: the merge equations at a concrete state and update. -/
theorem C7_auth_update_merges_witness :
    (authUpdate { token := some ⟨"t2"⟩, user := none }
        { token := some ⟨"t1"⟩, user := some "u" }).token =
      ((some (⟨"t2"⟩ : Token)).orElse fun _ => some ⟨"t1"⟩) ∧
    (authUpdate { token := some ⟨"t2"⟩, user := none }
        { token := some ⟨"t1"⟩, user := some "u" }).user =
      ((none : Option String).orElse fun _ => some "u") ∧
    authUpdate {} { token := some (⟨"t1"⟩ : Token), user := some "u" } =
      { token := some ⟨"t1"⟩, user := some "u" } :=
  C7_auth_update_merges { token := some ⟨"t1"⟩, user := some "u" }
    { token := some ⟨"t2"⟩, user := none }

/-- C8: the four round-trip equations of `parseErrorText`: a JSON array of
strings maps to itself; `detail` contributes no field-name prefix; an
array-valued field yields one line per element prefixed by the capitalized
key and `": "`; invalid JSON yields the raw text verbatim. -/
theorem C8_parse_error_roundtrip :
    parseErrorText "[\"E1\",\"E2\"]" = ["E1", "E2"] ∧
    parseErrorText "\x7b\"detail\":\"D\"\x7d" = ["D"] ∧
    parseErrorText "\x7b\"field\":[\"F1\",\"F2\"]\x7d" = ["Field: F1", "Field: F2"] ∧
    parseErrorText "not json" = ["not json"] := by
  exact ⟨rfl, rfl, rfl, rfl⟩

/-- C10: `parseErrorText` is total and any exception raised while
formatting a successfully parsed value falls into the `catch` branch and
yields the raw input verbatim; in particular `'[null]'` parses to a
one-element array whose `null` element makes `item.message` throw, so the
result is the raw text `"[null]"`, not the element's string form. -/
theorem C10_catch_formatting_errors :
    (∀ s parsed, jsonParse s = some parsed → formatParsed parsed = .error () →
      parseErrorText s = [s]) ∧
    jsonParse "[null]" = some (.jarr [.null]) ∧
    formatParsed (.jarr [.null]) = .error () ∧
    parseErrorText "[null]" = ["[null]"] := by
  refine ⟨?_, rfl, rfl, rfl⟩
  intro s parsed hp hf
  simp [parseErrorText, hp, hf]

/-- C10 witness: the catch-semantics clause applied at the concrete input
`'[null]'`. -/
theorem C10_catch_formatting_errors_witness :
    parseErrorText "[null]" = ["[null]"] :=
  C10_catch_formatting_errors.1 "[null]" (.jarr [.null]) rfl rfl

/-- C5 (code bug): in the failed-refresh terminal branch the dispatcher
calls `update({token: undefined, user: undefined})`, but `update`'s
nullish-coalescing merge preserves fields for which `undefined` is passed,
so the auth state is *not* cleared: after a 401 with a failed refresh the
stale token and user are still present. -/
theorem C5_clear_auth_is_noop :
    (dispatch envAuthFail gBase {} stOld).toOption.map (fun r => r.1.auth) =
      some { token := some ⟨"old-token"⟩, user := some "alice" } := by
  rfl

/-- C3 (code bug): the trailing `...init` spread of the option merge
replaces the freshly merged `{...defaultHeaders, ...init.headers}` object
with the caller's `headers`, so the global default `Content-Type` header
is dropped from the request whenever per-call headers are supplied; the
Authorization injection (the claim's second half) does hold — the
credential overwrites the caller-supplied `authorization` value. -/
theorem C3_default_headers_dropped :
    (dispatch envOkEmpty gBase
        { headers := some [("authorization", "Bearer hacked"), ("X-Custom", "1")] }
        { auth := { token := some ⟨"T"⟩ } }).toOption.map (fun r => fetchEvs r.2) =
      some [("GET", [("authorization", "Bearer T"), ("X-Custom", "1")], false)] ∧
    hGet [("authorization", "Bearer T"), ("X-Custom", "1")] "Content-Type" = none ∧
    gBase.defaultHeaders = [("Content-Type", "application/json")] := by
  exact ⟨rfl, rfl, rfl⟩

/-- The fuel discipline of the dispatcher: one retry step takes the fuel
of threshold `th` to the fuel of threshold `th + 1`. -/
theorem coreFuel_consistent (th : Nat) (h : th < maxThreshold) :
    coreFuel th = coreFuel (th + 1) + 1 := by
  simp only [coreFuel, maxThreshold] at *
  omega

/-- `coreFuel` is always positive: the fuel-0 branch of `dispatchFuel` is
unreachable from `dispatchCore`. -/
theorem coreFuel_pos (th : Nat) : 0 < coreFuel th := by
  simp only [coreFuel, maxThreshold]
  omega

/-- One-step unfolding, retry case: a 401/403 answer, a configured
retriever, a successful refresh, and an unexhausted threshold recurse into
the retry call — with the same captured `closureToken` — prefixing this
activation's start events. -/
theorem dispatchFuel_retry_step (env : Env) (g : FetchGlobalOptions)
    (ct : Option Token)
    (init : FetchInit) (st : DState) (fuel : Nat) (s : Nat) (stx b : String)
    (t : Token)
    (hn : env.net st.fetchCount = .resp s stx b)
    (h401 : (decide (s = 401) || decide (s = 403)) = true)
    (hret : env.retrieverConfigured = true)
    (ht : env.refresh st.refreshCount = some t)
    (hth : st.threshold < maxThreshold) :
    dispatchFuel env g ct (fuel + 1) init st =
      (match dispatchFuel env g ct fuel (retryInit init (dispatchHeaders init ct) t)
          (retryState st t) with
       | .ok (st2, ev2) => .ok (st2, startEvents init ct ++ ev2)
       | .error e => .error e) := by
  simp only [dispatchFuel, hn, hret, h401, Bool.and_true, if_true, ht, hth]

/-- One-step unfolding, terminal case with a failed refresh. -/
theorem dispatchFuel_norefresh_step (env : Env) (g : FetchGlobalOptions)
    (ct : Option Token)
    (init : FetchInit) (st : DState) (fuel : Nat) (s : Nat) (stx b : String)
    (hn : env.net st.fetchCount = .resp s stx b)
    (h401 : (decide (s = 401) || decide (s = 403)) = true)
    (hret : env.retrieverConfigured = true)
    (ht : env.refresh st.refreshCount = none) :
    dispatchFuel env g ct (fuel + 1) init st =
      .ok (authTerminal env g
        { st with fetchCount := st.fetchCount + 1, refreshCount := st.refreshCount + 1 }
        s stx b (startEvents init ct)) := by
  simp only [dispatchFuel, hn, hret, h401, Bool.and_true, if_true, ht]

/-- One-step unfolding, terminal case with an exhausted threshold. -/
theorem dispatchFuel_exhausted_step (env : Env) (g : FetchGlobalOptions)
    (ct : Option Token)
    (init : FetchInit) (st : DState) (fuel : Nat) (s : Nat) (stx b : String)
    (t : Token)
    (hn : env.net st.fetchCount = .resp s stx b)
    (h401 : (decide (s = 401) || decide (s = 403)) = true)
    (hret : env.retrieverConfigured = true)
    (ht : env.refresh st.refreshCount = some t)
    (hth : ¬ st.threshold < maxThreshold) :
    dispatchFuel env g ct (fuel + 1) init st =
      .ok (authTerminal env g
        { st with fetchCount := st.fetchCount + 1, refreshCount := st.refreshCount + 1 }
        s stx b (startEvents init ct)) := by
  simp only [dispatchFuel, hn, hret, h401, Bool.and_true, if_true, ht, hth, if_false]

/-- One-step unfolding, success case: a 2xx answer (outside the 401/403
retry path) with a JSON-parsable body stores the parsed value and emits
`onPending("end")` and `onSuccess`. -/
theorem dispatchFuel_success_step (env : Env) (g : FetchGlobalOptions)
    (ct : Option Token)
    (init : FetchInit) (st : DState) (fuel : Nat) (s : Nat) (stx b : String)
    (v : JVal)
    (hn : env.net st.fetchCount = .resp s stx b)
    (h401 : ((decide (s = 401) || decide (s = 403)) && env.retrieverConfigured) = false)
    (h2xx : 200 ≤ s ∧ s < 300)
    (hjp : jsonParse b = some v) :
    dispatchFuel env g ct (fuel + 1) init st =
      .ok ({ st with fetchCount := st.fetchCount + 1, data := some v },
           startEvents init ct ++ [.pending "end", .onSuccess v]) := by
  simp only [dispatchFuel, hn, h401, Bool.false_eq_true, if_false, h2xx, if_true, hjp]
  simp

/-- The terminal auth branch adds exactly one `onError` and no network
call to the trace. -/
theorem authTerminal_counts (env : Env) (g : FetchGlobalOptions) (st : DState)
    (status : Nat) (stx b : String) (ev1 : List Event) :
    fetchCalls (authTerminal env g st status stx b ev1).2 = fetchCalls ev1 ∧
    errorCalls (authTerminal env g st status stx b ev1).2 = errorCalls ev1 + 1 := by
  simp only [authTerminal, fetchCalls, errorCalls, List.countP_append]
  constructor
  · rcases g.unauthorizedRedirectUrl with _ | u
    · simp [List.countP_cons, isFetchEv, List.countP_nil]
    · by_cases h : env.pathname ≠ "" ∧ u ≠ "" ∧ env.pathname ≠ u <;>
        simp [h, List.countP_cons, isFetchEv, List.countP_nil]
  · rcases g.unauthorizedRedirectUrl with _ | u
    · simp [List.countP_cons, isErrorEv, List.countP_nil]
    · by_cases h : env.pathname ≠ "" ∧ u ≠ "" ∧ env.pathname ≠ u <;>
        simp [h, List.countP_cons, isErrorEv, List.countP_nil]

/-- The start events of one activation contain exactly one network call
and no `onError`. -/
theorem startEvents_counts (init : FetchInit) (ct : Option Token) :
    fetchCalls (startEvents init ct) = 1 ∧ errorCalls (startEvents init ct) = 0 := by
  simp [startEvents, fetchCalls, errorCalls, List.countP_cons, isFetchEv, isErrorEv]

/-- If no `errorParser` is configured and every 2xx response the network
can produce has a JSON-parsable body, `dispatchFuel` (run with consistent
fuel) resolves: every remaining branch is locally handled.  (The two
excluded branches reject: the unguarded `response.json()` on an
unparsable 2xx body, and a configured parser's second `response.text()`
read on a plain non-2xx.) -/
theorem dispatchFuel_ok_of_parsable (env : Env) (g : FetchGlobalOptions)
    (ct : Option Token)
    (hhec : g.hasErrRecord = false)
    (hjson : ∀ i s stx b, env.net i = .resp s stx b → 200 ≤ s → s < 300 →
      (jsonParse b).isSome = true) :
    ∀ fuel init st, fuel = coreFuel st.threshold →
      ∃ r, dispatchFuel env g ct fuel init st = .ok r := by
  intro fuel
  induction fuel with
  | zero =>
    intro init st h
    exact absurd (h ▸ coreFuel_pos st.threshold) (by omega)
  | succ fuel ih =>
    intro init st h
    simp only [dispatchFuel]
    rcases hnr : env.net st.fetchCount with _ | ⟨s, stx, b⟩
    · exact ⟨_, rfl⟩
    · by_cases h401 : ((s = 401 || s = 403) && env.retrieverConfigured) = true
      · simp only [h401, if_true]
        rcases href : env.refresh st.refreshCount with _ | tok
        · exact ⟨_, rfl⟩
        · by_cases hth : st.threshold < maxThreshold
          · simp only [hth, if_true]
            have hfuel : fuel = coreFuel ((retryState st tok).threshold) := by
              have := coreFuel_consistent st.threshold hth
              simp only [retryState]
              omega
            obtain ⟨r, hr⟩ := ih _ _ hfuel
            rw [hr]
            exact ⟨_, rfl⟩
          · simp only [hth, if_false]
            exact ⟨_, rfl⟩
      · simp only [h401, if_false]
        by_cases h2xx : 200 ≤ s ∧ s < 300
        · simp only [h2xx, if_true]
          obtain ⟨v, hv⟩ := Option.isSome_iff_exists.mp (hjson _ _ _ _ hnr h2xx.1 h2xx.2)
          rw [hv]
          exact ⟨_, rfl⟩
        · simp only [h2xx, if_false, hhec, Bool.false_eq_true]
          exact ⟨_, rfl⟩

/-- C4 (corrected): when no `errorParser` is configured and every 2xx
answer the network produces has a JSON-parsable body, `dispatch` resolves
— failures are reported only through the callback trace.  The two
remaining branches reject (see `C4_rejection_paths`): an unparsable 2xx
body, whose `SyntaxError` from the unguarded `await response.json()`
(hooks.ts:500) escapes; and a plain non-2xx with a configured
`errorParser`, where the body is consumed at hooks.ts:490 and the
parser's second `response.text()` (helpers.ts:154) throws a `TypeError`
that escapes. -/
theorem C4_resolves_when_2xx_bodies_parse (env : Env) (g : FetchGlobalOptions)
    (init : FetchInit) (st : DState)
    (hhec : g.hasErrRecord = false)
    (hjson : ∀ i s stx b, env.net i = .resp s stx b → 200 ≤ s → s < 300 →
      (jsonParse b).isSome = true) :
    ∃ r, dispatch env g init st = .ok r := by
  unfold dispatch dispatchCore
  exact dispatchFuel_ok_of_parsable env g _ hhec hjson _ _ _ rfl

/-- C4 witness: the always-200, body-`{}` network with the parserless
configuration resolves. -/
theorem C4_resolves_witness : ∃ r, dispatch envOkEmpty gBase {} {} = .ok r :=
  C4_resolves_when_2xx_bodies_parse envOkEmpty gBase {} {} rfl
    (fun i s stx b h _ _ => by
      simp only [envOkEmpty] at h
      cases h
      rfl)

/-- C4 counterexample: the promise returned by `dispatch` rejects (the
claim says it never does) on two concrete inputs — a 2xx response with the
body `not json` (the `SyntaxError` from `response.json()` escapes), and a
plain 500 under the default-style configuration with `errorParser`
configured (the parser re-reads the body consumed at hooks.ts:490 and the
`TypeError` escapes). -/
theorem C4_rejection_paths :
    dispatch envBadBody gBase {} {} = .error () ∧
    dispatch envServerErr gWithParser {} {} = .error () := ⟨rfl, rfl⟩

/-- Redirect-argument extraction distributes over trace concatenation. -/
theorem redirectArgs_append (a b : List Event) :
    redirectArgs (a ++ b) = redirectArgs a ++ redirectArgs b := by
  induction a with
  | nil => rfl
  | cons e rest ih => cases e <;> simp [redirectArgs, ih]

/-- In the failed-refresh terminal branch, the redirect collaborator is
invoked exactly for the configured-and-different-target case, once, with
`<target>?code=401&next=<pathname>`. -/
theorem dispatchFuel_failed_refresh (env : Env) (g : FetchGlobalOptions)
    (ct : Option Token)
    (init : FetchInit) (st : DState) (fuel : Nat) (stx b : String)
    (hnet : env.net st.fetchCount = .resp 401 stx b)
    (hret : env.retrieverConfigured = true)
    (href : env.refresh st.refreshCount = none) :
    ∃ st' ev, dispatchFuel env g ct (fuel + 1) init st = .ok (st', ev) ∧
      redirectArgs ev =
        (match g.unauthorizedRedirectUrl with
         | some u =>
           if env.pathname ≠ "" ∧ u ≠ "" ∧ env.pathname ≠ u then
             [u ++ "?code=401&next=" ++ env.pathname]
           else []
         | none => []) := by
  simp only [dispatchFuel, hnet, hret]
  norm_num
  rw [href]
  refine ⟨_, _, rfl, ?_⟩
  simp only [authTerminal, redirectArgs_append, redirectArgs]
  rcases g.unauthorizedRedirectUrl with _ | u
  · rfl
  · simp only []
    split <;> simp [redirectArgs]

/-- C6: in the failed-refresh terminal branch of a dispatch, the redirect
collaborator is invoked exactly once with
`<unauthorizedRedirectUrl>?code=401&next=<currentPath>` when a nonempty
target is configured and the current (nonempty) path differs from it, and
not at all otherwise; concretely, from `/dashboard` with target `/login`
the argument is `/login?code=401&next=/dashboard`, and from `/login`
itself no redirect happens. -/
theorem C6_redirect_on_failed_refresh :
    (∀ (env : Env) (g : FetchGlobalOptions) (init : FetchInit) (st : DState)
        (stx b : String),
      env.net st.fetchCount = .resp 401 stx b →
      env.retrieverConfigured = true →
      env.refresh st.refreshCount = none →
      ∃ st' ev, dispatch env g init st = .ok (st', ev) ∧
        redirectArgs ev =
          (match g.unauthorizedRedirectUrl with
           | some u =>
             if env.pathname ≠ "" ∧ u ≠ "" ∧ env.pathname ≠ u then
               [u ++ "?code=401&next=" ++ env.pathname]
             else []
           | none => [])) ∧
    (dispatch envAuthFailDash gBase {} {}).toOption.map (fun r => redirectArgs r.2) =
      some ["/login?code=401&next=/dashboard"] ∧
    (dispatch envAuthFail gBase {} {}).toOption.map (fun r => redirectArgs r.2) =
      some [] := by
  refine ⟨?_, rfl, rfl⟩
  intro env g init st stx b hnet hret href
  simp only [dispatch, dispatchCore]
  set st1 := if (mergeInit g.defaultHeaders init).clearThreshold then
    { st with threshold := 0 } else st with hst1
  have hfc : st1.fetchCount = st.fetchCount := by
    rw [hst1]; split <;> rfl
  have hrc : st1.refreshCount = st.refreshCount := by
    rw [hst1]; split <;> rfl
  obtain ⟨f, hf⟩ : ∃ f, coreFuel st1.threshold = f + 1 :=
    ⟨coreFuel st1.threshold - 1, by have := coreFuel_pos st1.threshold; omega⟩
  rw [hf]
  exact dispatchFuel_failed_refresh env g st1.auth.token _ st1 f stx b
    (hfc ▸ hnet) hret (hrc ▸ href)

/-- Network-call extraction distributes over trace concatenation. -/
theorem fetchEvs_append (a b : List Event) :
    fetchEvs (a ++ b) = fetchEvs a ++ fetchEvs b := by
  induction a with
  | nil => rfl
  | cons e rest ih => cases e <;> simp [fetchEvs, ih]

/-- Under consecutive 401/403 answers with an always-succeeding refresh
collaborator, a run from threshold `maxThreshold - k` makes exactly
`k + 1` network calls and reports exactly one error. -/
theorem dispatchFuel_unauth_count (env : Env) (g : FetchGlobalOptions)
    (ct : Option Token)
    (hret : env.retrieverConfigured = true)
    (hnet : ∀ i, ∃ s stx b, env.net i = .resp s stx b ∧ (s = 401 ∨ s = 403))
    (href : ∀ i, ∃ t, env.refresh i = some t) :
    ∀ k, ∀ (init : FetchInit) (st : DState),
      st.threshold = maxThreshold - k → k ≤ maxThreshold →
      ∃ st' ev, dispatchFuel env g ct (k + 1) init st = .ok (st', ev) ∧
        fetchCalls ev = k + 1 ∧ errorCalls ev = 1 := by
  intro k
  induction k with
  | zero =>
    intro init st hth hk
    obtain ⟨s, stx, b, hn, hs⟩ := hnet st.fetchCount
    obtain ⟨t, ht⟩ := href st.refreshCount
    have h401 : (decide (s = 401) || decide (s = 403)) = true := by
      rcases hs with rfl | rfl <;> simp
    have hnth : ¬ st.threshold < maxThreshold := by
      simp only [maxThreshold] at hth ⊢
      omega
    rw [dispatchFuel_exhausted_step env g ct init st 0 s stx b t hn h401 hret ht hnth]
    obtain ⟨hf, he⟩ := authTerminal_counts env g
      { st with fetchCount := st.fetchCount + 1, refreshCount := st.refreshCount + 1 }
      s stx b (startEvents init ct)
    have hf' : fetchCalls (authTerminal env g
        { st with fetchCount := st.fetchCount + 1, refreshCount := st.refreshCount + 1 }
        s stx b (startEvents init ct)).2 = 1 := by
      rw [hf, (startEvents_counts init ct).1]
    have he' : errorCalls (authTerminal env g
        { st with fetchCount := st.fetchCount + 1, refreshCount := st.refreshCount + 1 }
        s stx b (startEvents init ct)).2 = 1 := by
      rw [he, (startEvents_counts init ct).2]
    exact ⟨_, _, rfl, hf', he'⟩
  | succ k ih =>
    intro init st hth hk
    obtain ⟨s, stx, b, hn, hs⟩ := hnet st.fetchCount
    obtain ⟨t, ht⟩ := href st.refreshCount
    have h401 : (decide (s = 401) || decide (s = 403)) = true := by
      rcases hs with rfl | rfl <;> simp
    have hth' : st.threshold < maxThreshold := by
      simp only [maxThreshold] at hth hk ⊢
      omega
    have hrth : (retryState st t).threshold = maxThreshold - k := by
      simp only [retryState, maxThreshold] at hth hk ⊢
      omega
    obtain ⟨st', ev2, hok, hfc, hec⟩ :=
      ih (retryInit init (dispatchHeaders init ct) t) (retryState st t) hrth
        (by simp only [maxThreshold] at hk ⊢; omega)
    rw [dispatchFuel_retry_step env g ct init st (k + 1) s stx b t hn h401 hret ht hth', hok]
    refine ⟨_, _, rfl, ?_, ?_⟩
    · have h1 := (startEvents_counts init ct).1
      simp only [fetchCalls, List.countP_append] at h1 hfc ⊢
      omega
    · have h1 := (startEvents_counts init ct).2
      simp only [errorCalls, List.countP_append] at h1 hec ⊢
      omega

/-- C1: starting from a fresh retry counter, under consecutive 401 (or
403) responses with a refresh collaborator that always resolves a new
credential, one `dispatch` makes exactly `maxThreshold + 1 = 6` network
calls (in particular at most 6), stops, and reports the failure through
exactly one `onError` invocation — the recursion is bounded. -/
theorem C1_threshold_bound (env : Env) (g : FetchGlobalOptions)
    (init : FetchInit) (st : DState)
    (hret : env.retrieverConfigured = true)
    (hnet : ∀ i, ∃ s stx b, env.net i = .resp s stx b ∧ (s = 401 ∨ s = 403))
    (href : ∀ i, ∃ t, env.refresh i = some t)
    (h0 : st.threshold = 0) :
    ∃ st' ev, dispatch env g init st = .ok (st', ev) ∧
      fetchCalls ev = maxThreshold + 1 ∧ errorCalls ev = 1 := by
  simp only [dispatch, dispatchCore]
  set st1 := if (mergeInit g.defaultHeaders init).clearThreshold then
    { st with threshold := 0 } else st with hst1
  have hth1 : st1.threshold = 0 := by
    rw [hst1]; split <;> simp [h0]
  have hcf : coreFuel st1.threshold = maxThreshold + 1 := by
    rw [hth1]; rfl
  rw [hcf]
  exact dispatchFuel_unauth_count env g st1.auth.token hret hnet href maxThreshold
    (mergeInit g.defaultHeaders init) st1 (by rw [hth1]; simp) (le_refl _)

/-- C1 witness: the bound applied to the concrete always-401,
always-refreshing environment. -/
theorem C1_threshold_bound_witness :
    ∃ st' ev, dispatch envRefreshLoop gBase {} {} = .ok (st', ev) ∧
      fetchCalls ev = maxThreshold + 1 ∧ errorCalls ev = 1 :=
  C1_threshold_bound envRefreshLoop gBase {} {} rfl
    (fun _ => ⟨401, "Unauthorized", "nope", rfl, Or.inl rfl⟩)
    (fun _ => ⟨⟨"fresh"⟩, rfl⟩) rfl

/-- Assigning a header key makes it present with the assigned value. -/
theorem hGet_hset_self (m : HeaderMap) (k v : String) :
    hGet (hset m k v) k = some v := by
  induction m with
  | nil => simp [hset, hGet, List.find?]
  | cons kv rest ih =>
    by_cases h : kv.1 = k
    · simp [hset, h, hGet, List.find?]
    · simpa [hset, h, hGet, List.find?] using ih

/-- C2 (corrected): when the first network call answers 401, the refresh
collaborator resolves a new credential, the threshold is not exhausted,
*and the auth state captured by the dispatch closure holds no credential*,
exactly one further network call is made; that retry's `init` has
`clearThreshold` forced to `false` and its headers carry
`authorization = Bearer <new access_token>`, and a following 2xx answer
with body `{"ok":true}` makes the stored `data` equal `{ok: true}` — two
network calls in total.  (Without the no-prior-credential condition the
claim fails: the in-flight closure reads the stale render-time auth
state, so the injection at hooks.ts:408-415 overwrites the pre-set header
with the *old* credential — see `C2_stale_token_retry_header`.) -/
theorem C2_refresh_and_retry (env : Env) (g : FetchGlobalOptions)
    (init : FetchInit) (st : DState) (tok stx b stx2 : String) (s2 : Nat)
    (hf0 : st.fetchCount = 0) (hr0 : st.refreshCount = 0)
    (hth : st.threshold < maxThreshold)
    (hnotok : st.auth.token = none)
    (h0 : env.net 0 = .resp 401 stx b)
    (h1 : env.net 1 = .resp s2 stx2 "\x7b\"ok\":true\x7d")
    (hs2a : 200 ≤ s2) (hs2b : s2 < 300)
    (hret : env.retrieverConfigured = true)
    (href : env.refresh 0 = some ⟨tok⟩) :
    ∃ st' ev p1 m2 h2, dispatch env g init st = .ok (st', ev) ∧
      fetchEvs ev = [p1, (m2, h2, false)] ∧
      hGet h2 "authorization" = some ("Bearer " ++ tok) ∧
      st'.data = some (.jobj [("ok", .jbool true)]) := by
  simp only [dispatch, dispatchCore]
  set m := mergeInit g.defaultHeaders init with hm
  set st1 := if m.clearThreshold then { st with threshold := 0 } else st with hst1
  have hfc1 : st1.fetchCount = 0 := by rw [hst1]; split <;> simp [hf0]
  have hrc1 : st1.refreshCount = 0 := by rw [hst1]; split <;> simp [hr0]
  have hct : st1.auth.token = none := by rw [hst1]; split <;> simp [hnotok]
  have hth1 : st1.threshold < maxThreshold := by
    rw [hst1]; split
    · simp [maxThreshold]
    · exact hth
  obtain ⟨f, hfuel⟩ : ∃ f, coreFuel st1.threshold = f + 1 + 1 := by
    simp only [maxThreshold] at hth1
    refine ⟨4 - st1.threshold, ?_⟩
    simp only [coreFuel, maxThreshold]
    omega
  rw [hfuel, hct]
  rw [dispatchFuel_retry_step env g none m st1 (f + 1) 401 stx b ⟨tok⟩
    (by rw [hfc1]; exact h0) (by simp) hret (by rw [hrc1]; exact href) hth1]
  have hfc2 : (retryState st1 ⟨tok⟩).fetchCount = 1 := by
    simp [retryState, hfc1]
  have hne1 : s2 ≠ 401 := by omega
  have hne2 : s2 ≠ 403 := by omega
  have hnot401 : ((decide (s2 = 401) || decide (s2 = 403)) && env.retrieverConfigured) = false := by
    simp [hne1, hne2]
  have hjp : jsonParse "\x7b\"ok\":true\x7d" = some (.jobj [("ok", .jbool true)]) := rfl
  rw [dispatchFuel_success_step env g none (retryInit m (dispatchHeaders m none) ⟨tok⟩)
    (retryState st1 ⟨tok⟩) f s2 stx2 _ (.jobj [("ok", .jbool true)])
    (by rw [hfc2]; exact h1) hnot401 ⟨hs2a, hs2b⟩ hjp]
  refine ⟨_, _,
    (m.method.getD "GET", dispatchHeaders m none, m.clearThreshold),
    (retryInit m (dispatchHeaders m none) ⟨tok⟩).method.getD "GET",
    dispatchHeaders (retryInit m (dispatchHeaders m none) ⟨tok⟩) none,
    rfl, ?_, ?_, rfl⟩
  · rw [fetchEvs_append]
    simp [startEvents, fetchEvs, retryInit]
  · simp only [dispatchHeaders, retryInit, Option.getD]
    exact hGet_hset_self _ _ _

/-- C2 counterexample: on the refresh-and-retry scenario with a prior
credential `old-token` in the auth state (the realistic expired-token
case), *both* network calls — the retry included — carry
`authorization: Bearer old-token`: the stale closure's injection
overwrites the pre-set `Bearer new`, falsifying the claimed retry
header. -/
theorem C2_stale_token_retry_header :
    (dispatch envRefreshOnce gBase {} stOld).toOption.map
        (fun r => (fetchEvs r.2).map (fun e => hGet e.2.1 "authorization")) =
      some [some "Bearer old-token", some "Bearer old-token"] ∧
    ("Bearer old-token" : String) ≠ "Bearer new" := by
  exact ⟨rfl, by decide⟩

/-- C2 witness: the refresh-and-retry scenario from a credential-less
auth state, on the concrete environment whose first answer is 401 and
second is 200 `{"ok":true}`. -/
theorem C2_refresh_and_retry_witness :
    ∃ st' ev p1 m2 h2, dispatch envRefreshOnce gBase {} {} = .ok (st', ev) ∧
      fetchEvs ev = [p1, (m2, h2, false)] ∧
      hGet h2 "authorization" = some ("Bearer " ++ "new") ∧
      st'.data = some (.jobj [("ok", .jbool true)]) :=
  C2_refresh_and_retry envRefreshOnce gBase {} {} "new" "Unauthorized" "expired"
    "OK" 200 rfl rfl (by simp [maxThreshold]) rfl rfl rfl (by omega) (by omega)
    rfl rfl

/-- Removing one occurrence of an element satisfying `p` lowers the
`countP` by exactly one. -/
theorem countP_removeFirst_add_one (p : AlertElem → Bool) (e : AlertElem)
    (he : p e = true) :
    ∀ ch : List AlertElem, e ∈ ch →
      (removeFirst ch e).countP p + 1 = ch.countP p := by
  intro ch
  induction ch with
  | nil => intro h; cases h
  | cons x xs ih =>
    intro hmem
    by_cases hx : x = e
    · subst hx
      simp [removeFirst, List.countP_cons, he]
    · have hmem' : e ∈ xs := by
        rcases List.mem_cons.mp hmem with h | h
        · exact absurd h.symm hx
        · exact h
      have := ih hmem'
      simp only [removeFirst, hx, if_false, List.countP_cons]
      omega

/-- One `push` into a single-container document, with duplicate
replacement on, a container id distinct from the alert id, nonempty
content, and at most one pre-existing alert with the id: the result holds
exactly one alert with the id, namely the pushed one (appended last). -/
theorem pushAlert_step (tid aid node : String) (ch : List AlertElem)
    (hne : aid ≠ tid) (hnode : node ≠ "") (hcount : countById ch aid ≤ 1) :
    ∃ ch', pushAlert [⟨tid, ch⟩] tid true node aid none = .ok [⟨tid, ch'⟩] ∧
      filterById ch' aid = [⟨aid, node⟩] ∧ countById ch' aid = 1 := by
  have htne : ¬ (tid = aid) := fun h => hne h.symm
  rcases hfind : ch.find? (fun e => e.id = aid) with _ | e
  · -- no pre-existing alert with the id: plain append
    refine ⟨ch ++ [⟨aid, node⟩], ?_, ?_, ?_⟩
    · simp [pushAlert, findInDoc, htne, hfind, hnode, updateContainer]
    · have hnone : ∀ e ∈ ch, ¬ (e.id = aid) := by
        intro e hmem hid
        have := List.find?_eq_none.mp hfind e hmem
        simp [hid] at this
      have hfil : List.filter (fun e => e.id = aid) ch = [] := by
        simp only [List.filter_eq_nil_iff]
        intro a ha
        simpa using hnone a ha
      simp only [filterById, List.filter_append, hfil]
      simp
    · have hzero : countById ch aid = 0 := by
        simp only [countById, List.countP_eq_zero]
        intro a ha
        have := List.find?_eq_none.mp hfind a ha
        simpa using this
      simp only [countById, List.countP_append] at hzero ⊢
      simp [hzero, List.countP_cons]
  · -- a pre-existing alert is removed before the append
    have hpe : e.id = aid := by simpa using List.find?_some hfind
    have hmem : e ∈ ch := List.mem_of_find?_eq_some hfind
    have hcontains : containsF ⟨tid, ch⟩ (.child tid e) = true := by
      simp [containsF, List.any_eq_true]
      exact hmem
    have hone : countById ch aid = 1 := by
      have hpos : 0 < countById ch aid := by
        simp only [countById, List.countP_pos_iff]
        exact ⟨e, hmem, by simp [hpe]⟩
      omega
    have hrem : countById (removeFirst ch e) aid = 0 := by
      have := countP_removeFirst_add_one (fun x => x.id = aid) e (by simp [hpe]) ch hmem
      simp only [countById] at hone ⊢
      omega
    refine ⟨removeFirst ch e ++ [⟨aid, node⟩], ?_, ?_, ?_⟩
    · simp [pushAlert, findInDoc, htne, hfind, hnode, hcontains, updateContainer]
    · have hfil : List.filter (fun x => x.id = aid) (removeFirst ch e) = [] := by
        simp only [List.filter_eq_nil_iff]
        intro a ha
        have := List.countP_eq_zero.mp hrem a ha
        simpa using this
      simp only [filterById, List.filter_append, hfil]
      simp
    · simp only [countById, List.countP_append] at hrem ⊢
      simp [hrem, List.countP_cons]

/-- C9: with duplicate replacement enabled, pushing two alerts with the
same `alertId` into the same existing container leaves exactly one DOM
node with that id, holding the second push's content; each push maintains
the at-most-one-per-(container, id) invariant. -/
theorem C9_alert_replace_duplicates (tid aid c1 c2 : String) (ch : List AlertElem)
    (hne : aid ≠ tid) (h1 : c1 ≠ "") (h2 : c2 ≠ "") (hch : countById ch aid ≤ 1) :
    ∃ ch1 ch2', pushAlert [⟨tid, ch⟩] tid true c1 aid none = .ok [⟨tid, ch1⟩] ∧
      pushAlert [⟨tid, ch1⟩] tid true c2 aid none = .ok [⟨tid, ch2'⟩] ∧
      countById ch1 aid = 1 ∧
      filterById ch2' aid = [⟨aid, c2⟩] ∧ countById ch2' aid = 1 := by
  obtain ⟨ch1, hp1, _, hc1⟩ := pushAlert_step tid aid c1 ch hne h1 hch
  obtain ⟨ch2', hp2, hf2, hc2⟩ := pushAlert_step tid aid c2 ch1 hne h2 (le_of_eq hc1)
  exact ⟨ch1, ch2', hp1, hp2, hc1, hf2, hc2⟩

/-- C9 witness: the two-push scenario on a concrete empty container. -/
theorem C9_alert_replace_duplicates_witness :
    ∃ ch1 ch2', pushAlert [⟨"alerts", []⟩] "alerts" true "First" "a1" none =
        .ok [⟨"alerts", ch1⟩] ∧
      pushAlert [⟨"alerts", ch1⟩] "alerts" true "Second" "a1" none =
        .ok [⟨"alerts", ch2'⟩] ∧
      countById ch1 "a1" = 1 ∧
      filterById ch2' "a1" = [⟨"a1", "Second"⟩] ∧ countById ch2' "a1" = 1 :=
  C9_alert_replace_duplicates "alerts" "a1" "First" "Second" []
    (by decide) (by decide) (by decide) (by decide)

/-- C6 witness: the characterization applied to the concrete
`/dashboard` environment. -/
theorem C6_redirect_on_failed_refresh_witness :
    ∃ st' ev, dispatch envAuthFailDash gBase {} stOld = .ok (st', ev) ∧
      redirectArgs ev =
        (match gBase.unauthorizedRedirectUrl with
         | some u =>
           if envAuthFailDash.pathname ≠ "" ∧ u ≠ "" ∧ envAuthFailDash.pathname ≠ u then
             [u ++ "?code=401&next=" ++ envAuthFailDash.pathname]
           else []
         | none => []) :=
  C6_redirect_on_failed_refresh.1 envAuthFailDash gBase {} stOld
    "Unauthorized" "nope" rfl rfl rfl

end Hulk
